import Mathlib

/-!
  # Verification of the `air` HTTP framework's request-serving core

  A shallow embedding, in Lean 4, of the parts of the `air` repository that
  the specification's claims are about: the response writer state machine
  (`responseWriter.Write` / `responseWriter.WriteHeader` and the
  `Response` write methods in the response file), the dispatcher
  (`server.ServeHTTP` in `server.go`), the host-policy check
  (`server.allowedHost` and the static-certificate callback built in
  `server.serve`), and the minifier entry points (`minifier.go`).

  Modelling conventions:

  * Go byte slices are `List Nat`; Go strings that only need to be compared
    or stored are Lean `String`s, while host names, which need structural
    reasoning (port stripping, case folding), are `List Char`.
  * `http.Header` (a map from canonical keys to value lists) is an
    association list; the embedded code only ever uses already-canonical
    literal keys, so key canonicalisation is not modelled.
  * Machine integers are `Nat` (statuses, counts) or `Int`
    (`Response.ContentLength`, which uses `-1` as a sentinel); no value in
    the embedded paths approaches an overflow boundary.
  * The underlying `http.ResponseWriter` provided by `net/http` is a pure
    record (`WireOut`) whose `Write` always succeeds; network I/O errors
    are outside the model.
  * `http.ServeContent` is stdlib, not repository code: it is modelled on
    its plain, unconditional 200 path (send the response code through the
    wrapped `WriteHeader`, then the body unless the method is HEAD).
    Range/conditional handling, content sniffing and the `Content-Length`
    header it may set are outside the model. A nil `io.ReadSeeker` makes
    the stdlib function fault (`Seek`/`Read` on a nil interface value)
    before anything is committed, and the given `Response.Write` has no
    nil guard; the model represents that fault as the `panicked` outcome,
    which unwinds past the enclosing stages, the dispatcher's error check
    and the deferred-actions loop, exactly as a Go panic leaves
    `ServeHTTP` (which installs no recover).
  * Handlers are state transformers `Conn → Conn × Outcome`, where the
    outcome is a normal return carrying the Go error (nil or not;
    mutations survive an error return, hence a pair rather than `Except`)
    or a panic unwinding the stack. Middleware ("gases") are handler
    transformers, exactly as in Go.
  * Deferred response actions (`res.deferredFuncs`, Go closures) are
    modelled by identifiers; running one records an event in the
    connection's trace. Stage-ordering claims are settled by instantiating
    the middleware lists with event-logging gases.
-/

namespace AirSpec

/-- Go `[]byte`. -/
abbrev Bytes := List Nat

/-- A Go slice together with the capacity of its backing array, enough to
state the reuse claims: `s[:0]` zeroes the length but keeps the capacity. -/
structure GoSlice (α : Type) where
  data : List α
  cap : Nat
deriving Repr, DecidableEq

/-- Go `s[:0]`: length zero, backing capacity retained. -/
def GoSlice.trunc (s : GoSlice α) : GoSlice α :=
  { data := [], cap := s.cap }

/-- A `sync.Once`: all the embedding needs is whether it has fired. A fresh
one (`&sync.Once{}`) has not. -/
structure Once where
  fired : Bool
deriving Repr, DecidableEq

/-- `net/http`'s header map, `map[string][]string` under canonical keys,
as an association list. Only the operations the embedded code uses. -/
structure Header where
  entries : List (String × List String)
deriving Repr, DecidableEq

/-- `http.Header.Get`: first value under the key, `""` when absent. -/
def Header.get (h : Header) (k : String) : String :=
  match h.entries.find? (fun e => e.1 == k) with
  | some (_, v :: _) => v
  | _ => ""

/-- `http.Header.Set`: replace every value under the key. -/
def Header.set (h : Header) (k v : String) : Header :=
  ⟨(k, [v]) :: h.entries.filter (fun e => e.1 != k)⟩

/-- `http.Header.Del`: drop the key. -/
def Header.del (h : Header) (k : String) : Header :=
  ⟨h.entries.filter (fun e => e.1 != k)⟩

/-- The bits of the raw inbound `*http.Request` the embedded code touches:
the method and the request header map (the target of the dispatcher's
`r.Header.Del` calls). -/
structure HTTPRequest where
  method : String
  header : Header
deriving Repr, DecidableEq

/-- A route parameter: name and value. Modelled from the spec: the
`Request` type's own file is not among the provided sources; the spec
describes "route-parameter storage (name/value sequences)". Only the
sequence length matters to the claims. -/
structure RouteParam where
  name : String
  value : String
deriving Repr, DecidableEq

/-- The pooled `Request`, with the fields `server.ServeHTTP` resets
(`server.go`): the wrapped raw request (`SetHTTPRequest`), the back
reference to the paired `Response` (a pool-slot identifier here, a pointer
in Go), the route-parameter slice, the router-owned name/value slices, the
two one-shot parse guards, and the cached localized-string lookup. -/
structure Request where
  hr : HTTPRequest
  res : Nat
  params : GoSlice RouteParam
  routeParamNames : Option (List String)
  routeParamValues : Option (List String)
  parseRouteParamsOnce : Once
  parseOtherParamsOnce : Once
  localizedString : Option (String → String)

/-- The pooled `Response`: the fields of the source struct plus the ones
`server.ServeHTTP` assigns on reset. `Header` is not stored here: in the
source it aliases the underlying writer's map (`SetHTTPResponseWriter`
does `r.Header = hrw.Header()`), so the single header map lives in `Conn`.
The `Body` sink and the `ohrw` original-writer reference carry no state
the claims mention and are omitted. Deferred actions are identifiers. -/
structure Response where
  status : Nat
  contentLength : Int
  written : Bool
  minified : Bool
  gzipped : Bool
  req : Nat
  servingContent : Bool
  serveContentError : Option String
  reverseProxying : Bool
  reverseProxyError : Option String
  deferredFuncs : GoSlice Nat
deriving Repr, DecidableEq

/-- The `Air` configuration fields the embedded paths read, plus the two
collaborator parameters of the minifier model: the list of MIME types with
a registered minifier (populated by `minifier.Init`) and the external
library's per-type transform. -/
structure AirCfg where
  debugMode : Bool
  httpsEnforced : Bool
  tlsConfigured : Bool
  hostWhitelist : List (List Char)
  minRegistered : List String
  minTransform : String → Bytes → Except String Bytes

/-- What has reached the wire: the committed status line together with the
header map snapshot sent with it, and the body bytes. -/
structure WireOut where
  committed : Option (Nat × Header)
  body : Bytes
deriving Repr, DecidableEq

/-- Kinds of middleware: pre-route (`Pregases`) or post-route (`Gases`). -/
inductive GasKind
  | pre
  | post
deriving Repr, DecidableEq

/-- Observable events of one request lifecycle, used to state ordering
claims: entering / leaving a middleware stage, route resolution, the
matched handler, one deferred action, and the error handler (recording the
response status it observed). -/
inductive Event
  | enter : GasKind → Nat → Event
  | leave : GasKind → Nat → Event
  | route : Event
  | handler : Event
  | deferredRun : Nat → Event
  | errh : Nat → Event
deriving Repr, DecidableEq

/-- The full per-request state threaded through the embedded code: the
configuration, the paired request and response, the single response header
map (aliased in Go between `Response.Header` and the writers), the wire,
and the event trace. -/
structure Conn where
  air : AirCfg
  req : Request
  res : Response
  respHeader : Header
  wire : WireOut
  trace : List Event

/-! ## The response writer state machine (`responseWriter`, response file) -/

/-- `responseWriter.WriteHeader` (response file, lines 483-506): a no-op
once `Written` is set; otherwise, if the status about to be sent is the
generic 200 while a different status is recorded on the `Response`, the
recorded status wins; inject the HSTS header (HTTPS enforced, TLS
configured, not debug, none present) and the `Server` header; send the
status line with the header snapshot; record the status and flip
`Written`. -/
def rwWriteHeader (status : Nat) (c : Conn) : Conn :=
  if c.res.written then c
  else
    let status := if status = 200 ∧ status ≠ c.res.status then c.res.status else status
    let h :=
      if c.air.debugMode = false ∧ c.air.httpsEnforced ∧ c.air.tlsConfigured ∧
          c.respHeader.get "Strict-Transport-Security" = "" then
        c.respHeader.set "Strict-Transport-Security" "max-age=31536000"
      else c.respHeader
    let h := h.set "Server" "Air"
    { c with
      respHeader := h
      wire := { c.wire with committed := some (status, h) }
      res := { c.res with status := status, written := true } }

/-- `responseWriter.Write` (response file, lines 467-480): commit with the
recorded status when not yet written, forward the bytes to the underlying
writer (always succeeding in the model), and accrue the byte count onto
`ContentLength`. Returns the count written. -/
def rwWrite (b : Bytes) (c : Conn) : Nat × Conn :=
  let c := if c.res.written then c else rwWriteHeader c.res.status c
  let c := { c with wire := { c.wire with body := c.wire.body ++ b } }
  let c := { c with res := { c.res with contentLength := c.res.contentLength + b.length } }
  (b.length, c)

/-- How a call that runs request-handling code comes back: a normal
return carrying the Go error value (`ret none` is a nil error), or a
panic unwinding the stack - the code after the call never runs. -/
inductive Outcome
  | ret : Option String → Outcome
  | panicked : Outcome
deriving Repr, DecidableEq

/-- A model of stdlib `http.ServeContent` on its plain 200 path: send the
200 code through the wrapped `WriteHeader` (where a recorded non-200
status overrides it), then the body through the wrapped `Write` unless
the method is HEAD. Conditional/range serving and content sniffing are
outside the model. A nil content is a fault: the stdlib function calls
`Seek` (or `Read`, when sniffing) on the nil `io.ReadSeeker` while
computing the content type and size, before it commits anything, so it
panics with nothing written. -/
def serveContent (content : Option Bytes) (c : Conn) : Conn × Outcome :=
  match content with
  | none => (c, .panicked)
  | some bs =>
      let c := rwWriteHeader 200 c
      if c.req.hr.method = "HEAD" then (c, .ret none) else ((rwWrite bs c).2, .ret none)

/-- `Response.Write` (response file, lines 63-77): once written, copy the
content straight to the wire unless the method is HEAD; on the first
write, delegate to `http.ServeContent`. There is no nil guard: a nil
content panics in `io.Copy` (written, non-HEAD) or inside
`http.ServeContent` (unwritten); otherwise the Go error is nil, the
model's underlying writer being unable to fail. -/
def respWrite (content : Option Bytes) (c : Conn) : Conn × Outcome :=
  if c.res.written then
    match content with
    | none =>
        if c.req.hr.method = "HEAD" then (c, .ret none) else (c, .panicked)
    | some bs =>
        if c.req.hr.method = "HEAD" then (c, .ret none)
        else ((rwWrite bs c).2, .ret none)
  else
    serveContent content c

/-! ## The minifier (`minifier.go`) and the blob write path -/

/-- The MIME types `minifier.Init` registers with the external minify
library (`minifier.go`, lines 48-66). -/
def registeredMimeTypes : List String :=
  ["text/html", "text/css", "text/javascript", "application/json",
   "text/xml", "image/svg+xml"]

/-- The base media type of a `Content-Type` header value: everything
before the first `;`, lower-cased, the key the minify library matches
registered minifiers against. -/
def mimeBase (ct : String) : String :=
  String.mk ((ct.toList.takeWhile (fun ch => ch ≠ ';')).map Char.toLower)

/-- `minifier.minifyOthers` (`minifier.go`, lines 111-120): delegate to
the external library (`reg` the registered types, `tr` the library's
transform); the library's "no such minifier" outcome is turned into a hard
`unsupported mime type` error. -/
def minifyOthers (reg : List String) (tr : String → Bytes → Except String Bytes)
    (mimeType : String) (b : Bytes) : Except String Bytes :=
  if mimeBase mimeType ∈ reg then tr mimeType b
  else .error "unsupported mime type"

/-- `minifier.Minify` (`minifier.go`, lines 69-77): JPEG and PNG go to the
image re-encoders (represented by the external transform), everything else
to `minifyOthers`. -/
def minifierMinify (reg : List String) (tr : String → Bytes → Except String Bytes)
    (mimeType : String) (b : Bytes) : Except String Bytes :=
  if mimeType = "image/jpeg" ∨ mimeType = "image/png" then tr mimeType b
  else minifyOthers reg tr mimeType b

/-- Modelled from the spec: the `minify` method `Response.WriteBlob` calls
(`r.Air.minifier.minify`) is declared outside the provided sources - only
its caller is under `src/`. Spec section 6 gives its contract: "Minifier
collaborator: `minify(mimeType, bytes) -> (bytes, error)`; unregistered
mime type => original bytes, no error"; section 4.5 adds that a registered
minifier's failure propagates. Registered types are the `minifier.Init`
list plus the JPEG/PNG image pipelines. -/
def minify (reg : List String) (tr : String → Bytes → Except String Bytes)
    (mimeType : String) (b : Bytes) : Except String Bytes :=
  let base := mimeBase mimeType
  if base = "image/jpeg" ∨ base = "image/png" then tr base b
  else if base ∈ reg then tr base b
  else .ok b

/-- `Response.WriteBlob` (response file, lines 80-89): when a
`Content-Type` header is set, route the bytes through the minifier keyed
by it, propagating its error; then send via `Response.Write`. -/
def writeBlob (b : Bytes) (c : Conn) : Conn × Outcome :=
  let ct := c.respHeader.get "Content-Type"
  if ct ≠ "" then
    match minify c.air.minRegistered c.air.minTransform ct b with
    | .error e => (c, .ret (some e))
    | .ok b2 => respWrite (some b2) c
  else
    respWrite (some b) c

/-- The bytes of a Go string, as the blob path receives them. Code points
stand in for the UTF-8 encoding; none of the claims depend on the
encoding itself. -/
def strBytes (s : String) : Bytes :=
  s.toList.map Char.toNat

/-- `Response.WriteString` (response file, lines 92-95): set the
`text/plain` content type and funnel through `WriteBlob`. -/
def writeString (s : String) (c : Conn) : Conn × Outcome :=
  let c := { c with respHeader := c.respHeader.set "Content-Type" "text/plain; charset=utf-8" }
  writeBlob (strBytes s) c

/-- `Response.Redirect` (response file, lines 326-335): a recorded status
below the redirect range or at/above the client-error range is replaced by
302 Found; then stdlib `http.Redirect` sets the `Location` header and
sends the status through the wrapped `WriteHeader` (the redirect body it
writes for GET requests is outside the model). -/
def redirect (url : String) (c : Conn) : Conn × Option String :=
  let c :=
    if c.res.status < 300 ∨ 400 ≤ c.res.status then
      { c with res := { c.res with status := 302 } }
    else c
  let c := { c with respHeader := c.respHeader.set "Location" url }
  (rwWriteHeader c.res.status c, none)

/-! ## The dispatcher (`server.ServeHTTP`, `server.go` lines 236-337) -/

/-- A routed or composed handler: Go `func(*Request, *Response) error`.
Mutations survive an error return, hence a pair rather than `Except`; the
outcome also records a panic, which no embedded stage recovers. -/
abbrev Handler := Conn → Conn × Outcome

/-- A middleware ("gas"): Go `func(Handler) Handler`. -/
abbrev Gas := Handler → Handler

/-- The per-request reset of the pooled pair (`server.go`, lines 250-280):
wrap the raw request, rewire the back references (pool-slot identifiers
standing in for Go pointers), truncate the route-parameter slice keeping
its capacity, drop the router-owned slices, replace the one-shot parse
guards, clear the cached localized-string lookup, restore the `Response`
status/length/flag defaults, and truncate the deferred-actions list
keeping its capacity. -/
def resetPair (reqOld : Request) (resOld : Response) (hr : HTTPRequest)
    (reqId resId : Nat) : Request × Response :=
  let req : Request :=
    { hr := hr
      res := resId
      params := reqOld.params.trunc
      routeParamNames := none
      routeParamValues := none
      parseRouteParamsOnce := ⟨false⟩
      parseOtherParamsOnce := ⟨false⟩
      localizedString := none }
  let res : Response :=
    { status := 200
      contentLength := -1
      written := false
      minified := false
      gzipped := false
      req := reqId
      servingContent := false
      serveContentError := none
      reverseProxying := false
      reverseProxyError := none
      deferredFuncs := resOld.deferredFuncs.trunc }
  (req, res)

/-- The innermost wrapper the dispatcher places around the routed handler
(`server.go`, lines 286-300): run it (a panic inside it unwinds straight
through); if the response was written, pass the error through; if it
returned no error, force the no-content result - status 204, delete the
`Content-Type` and `Content-Length` keys of the *incoming request's*
header map (the source's `r.Header.Del`, `r` being the captured
`*http.Request`), and perform the empty write, which panics in
`http.ServeContent` since the content is nil; otherwise escalate a
sub-400 status to 500 and propagate the error. -/
def routedInner (rh : Handler) : Handler := fun c =>
  let r := rh c
  match r.2 with
  | .panicked => (r.1, .panicked)
  | .ret e =>
      let c := r.1
      if c.res.written then (c, .ret e)
      else
        match e with
        | none =>
            let c := { c with res := { c.res with status := 204 } }
            let c := { c with req := { c.req with hr := { c.req.hr with
                        header := (c.req.hr.header.del "Content-Type").del
                          "Content-Length" } } }
            respWrite none c
        | some err =>
            if c.res.status < 400 then
              ({ c with res := { c.res with status := 500 } }, .ret (some err))
            else (c, .ret (some err))

/-- The dispatcher's wrapping loops (`server.go`, lines 302-304 and
311-313): `for i := len(gases)-1; i >= 0; i--: h = gases[i](h)`, so the
element at index 0 ends up outermost and the last element innermost. The
fold applies the last gas to `h` first, exactly as the loop does. -/
def chainGases (gases : List Gas) (h : Handler) : Handler :=
  gases.foldr (fun g acc => g acc) h

/-- The unit the pre-route gases wrap (`server.go`, lines 284-307):
resolve the route for the current request (the router, an external
collaborator, may mutate the request and returns the matched handler),
then run the post-route gases chained around `routedInner`. -/
def routedUnit (route : Conn → Handler × Conn) (gases : List Gas) : Handler := fun c =>
  let r := route c
  (chainGases gases (routedInner r.1)) r.2

/-- The deferred-actions loop (`server.go`, lines 323-325):
`for i := len(res.deferredFuncs)-1; i >= 0; i--: res.deferredFuncs[i]()`.
Running the action with identifier `a` records `Event.deferredRun a`; the
recursion runs the later-registered suffix first, exactly as the
descending loop does. -/
def runDefer : List Nat → Conn → Conn
  | [], c => c
  | a :: rest, c =>
      let c := runDefer rest c
      { c with trace := c.trace ++ [Event.deferredRun a] }

/-- Run every deferred action registered on the response, last first. -/
def runDeferredLoop (c : Conn) : Conn :=
  runDefer c.res.deferredFuncs.data c

/-- The dispatch portion of `server.ServeHTTP` after the pool reset
(`server.go`, lines 282-325): chain the pre-route gases around the routed
unit, execute, hand an escaped error with the request/response state to
the `ErrorHandler` collaborator, then run the deferred actions. A panic
unwinds out of `ServeHTTP` (no recover is installed): the error check,
the deferred loop and the pool puts never run. The pool-return
bookkeeping after line 325 carries no claim-visible state. -/
def dispatch (pre gases : List Gas) (route : Conn → Handler × Conn)
    (eh : String → Conn → Conn) (c0 : Conn) : Conn × Outcome :=
  let r := (chainGases pre (routedUnit route gases)) c0
  match r.2 with
  | .panicked => (r.1, .panicked)
  | .ret (some err) => (runDeferredLoop (eh err r.1), .ret none)
  | .ret none => (runDeferredLoop r.1, .ret none)

/-! ## Logging instantiations used to state the ordering claims -/

/-- Append one event to the trace. -/
def logEvent (e : Event) (c : Conn) : Conn :=
  { c with trace := c.trace ++ [e] }

/-- A middleware that records entering before calling its continuation and
leaving after it returns, passing state and outcome through unchanged; a
panic in the continuation unwinds past the leave record, as it would past
the code after the inner call in Go. -/
def logGas (k : GasKind) (i : Nat) : Gas := fun inner c =>
  let r := inner (logEvent (.enter k i) c)
  match r.2 with
  | .panicked => (r.1, .panicked)
  | o => (logEvent (.leave k i) r.1, o)

/-- A matched handler stub that records itself, writes a one-byte body and
returns no error: the lifecycle completes normally, without the faulting
no-content finalizer. -/
def logWriteHandler : Handler := fun c =>
  respWrite (some [42]) (logEvent .handler c)

/-- A matched handler that mutates nothing, writes nothing and returns no
error: the input of the faulting no-content path. -/
def rhNoWrite : Handler := fun c =>
  (c, .ret none)

/-- A router that records route resolution and resolves to
`logWriteHandler`. -/
def logRoute : Conn → Handler × Conn := fun c =>
  (logWriteHandler, logEvent .route c)

/-- A router that resolves to the non-writing `rhNoWrite` and mutates
nothing. -/
def routeNoWrite : Conn → Handler × Conn := fun c =>
  (rhNoWrite, c)

/-- A middleware that returns the error `err` without calling its inner
continuation: a short-circuiting stage. -/
def shortGas (err : String) : Gas := fun _ c =>
  (c, .ret (some err))

/-- An `ErrorHandler` that records the response status it observes when
invoked. -/
def ehRecord : String → Conn → Conn := fun _ c =>
  logEvent (.errh c.res.status) c

/-- An `ErrorHandler` that does nothing. -/
def ehNoop : String → Conn → Conn := fun _ c => c

/-! ## Host policy (`server.allowedHost`, static-certificate callback) -/

/-- Split a character list at its last colon: `some (before, after)` when
a colon exists (`after` colon-free by construction), `none` otherwise. -/
def splitAtLastColon : List Char → Option (List Char × List Char)
  | [] => none
  | ch :: rest =>
      match splitAtLastColon rest with
      | some (h, p) => some (ch :: h, p)
      | none => if ch = ':' then some ([], rest) else none

/-- A model of stdlib `net.SplitHostPort` on the address forms the host
check meets: `host:port` splits at the last colon provided the host part
is colon- and bracket-free, `[v6]:port` strips the brackets, and every
malformed or colon-free input yields the error outcome `([], [])` (the Go
function returns empty host and port with an error, and `allowedHost` only
asks whether the host part came back non-empty). -/
def splitHostPort (s : List Char) : List Char × List Char :=
  match splitAtLastColon s with
  | none => ([], [])
  | some (h, p) =>
      if '[' ∈ p ∨ ']' ∈ p then ([], [])
      else if h.head? = some '[' then
        if h.getLast? = some ']' then
          let inner := (h.drop 1).dropLast
          if '[' ∈ inner ∨ ']' ∈ inner then ([], []) else (inner, p)
        else ([], [])
      else if ':' ∈ h ∨ '[' ∈ h ∨ ']' ∈ h then ([], []) else (h, p)

/-- Go `strings.ToLower` on the ASCII host names the policy compares. -/
def toLowerL (s : List Char) : List Char :=
  s.map Char.toLower

/-- Modelled from the spec: `stringSliceContainsCIly` is declared outside
the provided sources - `server.allowedHost` is its only caller under
`src/`. The spec (sections 3 and 4.1) describes the whitelist as a
"case-insensitive set of allowed names" matched "case-insensitively". -/
def stringSliceContainsCIly (ss : List (List Char)) (s : List Char) : Bool :=
  ss.any (fun v => toLowerL v == toLowerL s)

/-- `server.allowedHost` (`server.go`, lines 223-233): debug mode or an
empty whitelist allows everything; otherwise strip a port suffix when
`net.SplitHostPort` yields a non-empty host, and match the whitelist
case-insensitively. -/
def allowedHost (cfg : AirCfg) (host : List Char) : Bool :=
  if cfg.debugMode ∨ cfg.hostWhitelist.isEmpty then true
  else
    let host := match splitHostPort host with
                | (h, _) => if h ≠ [] then h else host
    stringSliceContainsCIly cfg.hostWhitelist host

/-- The static-certificate `GetCertificate` callback (`server.go`, lines
111-121): a disallowed server name gets no certificate and the underlying
connection is closed (the Boolean component; the callback returns
`Conn.Close()`'s result rather than a TLS error); an allowed one gets the
certificate loaded at startup (a token here). -/
def getCertificateStatic (cfg : AirCfg) (cert : Nat) (serverName : List Char) :
    Option Nat × Bool :=
  if allowedHost cfg serverName then (some cert, false) else (none, true)

/-! ## Concrete fixtures -/

/-- A configuration with every TLS/debug switch off, an empty whitelist,
and the `Init`-registered minifier set with an identity transform. -/
def cfg0 : AirCfg :=
  { debugMode := false
    httpsEnforced := false
    tlsConfigured := false
    hostWhitelist := []
    minRegistered := registeredMimeTypes
    minTransform := fun _ b => .ok b }

/-- A plain GET request with no headers. -/
def hr0 : HTTPRequest :=
  { method := "GET", header := ⟨[]⟩ }

/-- A freshly reset request wired to response slot 0. -/
def req0 : Request :=
  { hr := hr0
    res := 0
    params := ⟨[], 0⟩
    routeParamNames := none
    routeParamValues := none
    parseRouteParamsOnce := ⟨false⟩
    parseOtherParamsOnce := ⟨false⟩
    localizedString := none }

/-- A freshly reset response wired to request slot 0. -/
def res0 : Response :=
  { status := 200
    contentLength := -1
    written := false
    minified := false
    gzipped := false
    req := 0
    servingContent := false
    serveContentError := none
    reverseProxying := false
    reverseProxyError := none
    deferredFuncs := ⟨[], 0⟩ }

/-- A connection exactly as the dispatcher's reset leaves it. -/
def conn0 : Conn :=
  { air := cfg0
    req := req0
    res := res0
    respHeader := ⟨[]⟩
    wire := { committed := none, body := [] }
    trace := [] }

/-- `conn0` with a recorded non-default status, for the commit claims. -/
def conn5 : Conn :=
  { conn0 with res := { res0 with status := 418 } }

/-- `conn0` whose incoming request carries `Content-Type` and
`Content-Length` headers, to expose which header map the no-content
finalizer strips. -/
def connC1 : Conn :=
  { conn0 with
    req := { req0 with hr :=
      { method := "GET"
        header := ⟨[("Content-Type", ["application/json"]),
                    ("Content-Length", ["17"])]⟩ } } }

/-- A route whose matched handler records a `text/plain` content type on
the response and returns no error without writing. -/
def routeSetCT : Conn → Handler × Conn := fun c =>
  (fun c2 =>
    ({ c2 with respHeader := c2.respHeader.set "Content-Type" "text/plain; charset=utf-8" },
     .ret none),
   c)

/-- `conn0` with a recorded redirect-range status. -/
def conn301 : Conn :=
  { conn0 with res := { res0 with status := 301 } }

/-- A matched handler that mutates nothing and returns an error. -/
def rhErr : Handler := fun c => (c, .ret (some "boom"))

/-- `conn0` with three deferred actions already registered, to show what
the faulting no-content path does to them. -/
def conn6 : Conn :=
  { conn0 with res := { res0 with deferredFuncs := ⟨[1, 2, 3], 3⟩ } }

/-- `cfg0` with a one-entry host whitelist. -/
def cfgW : AirCfg :=
  { cfg0 with hostWhitelist := ["example.com".toList] }

/-- `cfg0` with debug mode on. -/
def cfgDbg : AirCfg :=
  { cfg0 with debugMode := true }

/-- A sequence of body writes through `responseWriter.Write`, the shape
behind every `Response` body-writing method. -/
def writeMany (bs : List Bytes) (c : Conn) : Conn :=
  bs.foldl (fun c b => (rwWrite b c).2) c

/-! ## Support lemmas -/

theorem rwWriteHeader_contentLength (st : Nat) (c : Conn) :
    (rwWriteHeader st c).res.contentLength = c.res.contentLength := by
  rw [rwWriteHeader]
  split <;> rfl

theorem rwWrite_contentLength (b : Bytes) (c : Conn) :
    ((rwWrite b c).2).res.contentLength = c.res.contentLength + b.length := by
  simp only [rwWrite]
  split
  · rfl
  · rw [rwWriteHeader_contentLength]

theorem writeMany_contentLength : ∀ (bs : List Bytes) (c : Conn),
    (writeMany bs c).res.contentLength
      = c.res.contentLength + ((bs.map List.length).sum : Int) := by
  intro bs
  induction bs with
  | nil => intro c; simp [writeMany]
  | cons b rest ih =>
      intro c
      simp only [writeMany, List.foldl_cons] at *
      rw [ih, rwWrite_contentLength]
      simp [List.sum_cons]
      ring

theorem rwWriteHeader_body (st : Nat) (c : Conn) :
    (rwWriteHeader st c).wire.body = c.wire.body := by
  rw [rwWriteHeader]
  split <;> rfl

theorem rwWriteHeader_req (st : Nat) (c : Conn) :
    (rwWriteHeader st c).req = c.req := by
  rw [rwWriteHeader]
  split <;> rfl

theorem rwWriteHeader_trace (st : Nat) (c : Conn) :
    (rwWriteHeader st c).trace = c.trace := by
  rw [rwWriteHeader]
  split <;> rfl

theorem rwWriteHeader_deferred (st : Nat) (c : Conn) :
    (rwWriteHeader st c).res.deferredFuncs = c.res.deferredFuncs := by
  rw [rwWriteHeader]
  split <;> rfl

theorem rwWrite_body (b : Bytes) (c : Conn) :
    ((rwWrite b c).2).wire.body = c.wire.body ++ b := by
  simp only [rwWrite]
  split
  · rfl
  · rw [rwWriteHeader_body]

theorem rwWriteHeader_written (st : Nat) (c : Conn) :
    (rwWriteHeader st c).res.written = true := by
  rw [rwWriteHeader]
  split
  · assumption
  · rfl

theorem rwWrite_written (b : Bytes) (c : Conn) :
    ((rwWrite b c).2).res.written = true := by
  simp only [rwWrite]
  split
  · assumption
  · rw [rwWriteHeader_written]

theorem rwWrite_trace (b : Bytes) (c : Conn) :
    ((rwWrite b c).2).trace = c.trace := by
  simp only [rwWrite]
  split
  · rfl
  · rw [rwWriteHeader_trace]

theorem rwWrite_deferred (b : Bytes) (c : Conn) :
    ((rwWrite b c).2).res.deferredFuncs = c.res.deferredFuncs := by
  simp only [rwWrite]
  split
  · rfl
  · rw [rwWriteHeader_deferred]

theorem header_get_set (h : Header) (k v : String) : (h.set k v).get k = v := by
  simp [Header.get, Header.set]

/-- `Response.Write` of a non-nil payload returns normally with a nil
error: only the nil content faults. -/
theorem respWrite_some_ret (c : Conn) (b : Bytes) :
    (respWrite (some b) c).2 = .ret none := by
  by_cases hw : c.res.written
  · simp only [respWrite, hw, if_true]
    split <;> rfl
  · simp only [respWrite, hw, Bool.false_eq_true, if_false, serveContent]
    split <;> rfl

/-- After `Response.Write` of a non-nil payload the response is written:
either it already was, or the delegated `http.ServeContent` committed. -/
theorem respWrite_some_written (c : Conn) (b : Bytes) :
    (respWrite (some b) c).1.res.written = true := by
  by_cases hw : c.res.written
  · simp only [respWrite, hw, if_true]
    split
    · exact hw
    · rw [rwWrite_written]
  · simp only [respWrite, hw, Bool.false_eq_true, if_false, serveContent]
    split
    · rw [rwWriteHeader_written]
    · rw [rwWrite_written]

theorem respWrite_some_trace (c : Conn) (b : Bytes) :
    (respWrite (some b) c).1.trace = c.trace := by
  by_cases hw : c.res.written
  · simp only [respWrite, hw, if_true]
    split
    · rfl
    · rw [rwWrite_trace]
  · simp only [respWrite, hw, Bool.false_eq_true, if_false, serveContent]
    split
    · rw [rwWriteHeader_trace]
    · rw [rwWrite_trace, rwWriteHeader_trace]

theorem respWrite_some_deferred (c : Conn) (b : Bytes) :
    (respWrite (some b) c).1.res.deferredFuncs = c.res.deferredFuncs := by
  by_cases hw : c.res.written
  · simp only [respWrite, hw, if_true]
    split
    · rfl
    · rw [rwWrite_deferred]
  · simp only [respWrite, hw, Bool.false_eq_true, if_false, serveContent]
    split
    · rw [rwWriteHeader_deferred]
    · rw [rwWrite_deferred, rwWriteHeader_deferred]

/-- On an unwritten response with a non-HEAD method, `Response.Write` of a
payload reports no error and appends exactly that payload to the wire. -/
theorem respWrite_passthrough (c : Conn) (b : Bytes)
    (hw : c.res.written = false) (hm : ¬c.req.hr.method = "HEAD") :
    (respWrite (some b) c).2 = .ret none
    ∧ (respWrite (some b) c).1.wire.body = c.wire.body ++ b := by
  refine ⟨respWrite_some_ret c b, ?_⟩
  simp only [respWrite, hw]
  simp only [Bool.false_eq_true, if_false, serveContent]
  have hm2 : ¬(rwWriteHeader 200 c).req.hr.method = "HEAD" := by
    rw [rwWriteHeader_req]; exact hm
  rw [if_neg hm2, rwWrite_body, rwWriteHeader_body]

/-- When the recorded content type has no registered minifier (and is not
one of the image pipelines), `WriteBlob` is exactly `Response.Write` of
the original bytes: the minifier step is the identity, not a failure. -/
theorem writeBlob_nominify (c : Conn) (b : Bytes)
    (h1 : mimeBase (c.respHeader.get "Content-Type") ∉ c.air.minRegistered)
    (h2 : mimeBase (c.respHeader.get "Content-Type") ≠ "image/jpeg")
    (h3 : mimeBase (c.respHeader.get "Content-Type") ≠ "image/png") :
    writeBlob b c = respWrite (some b) c := by
  by_cases hct : c.respHeader.get "Content-Type" = ""
  · simp [writeBlob, hct]
  · simp [writeBlob, hct, minify, h1, h2, h3]

/-! ## Claim theorems -/

/-- C9: the per-request reset restores every carry-over field before the
handler chain runs - route parameters truncated to zero length with the
backing capacity kept, router-owned slices dropped, fresh one-shot
guards, localized-string cache cleared, back references rewired, response
status/length/flags at their defaults, and the deferred-actions list
truncated keeping capacity - so a reused slot shows zero route parameters
until the router sets its own. -/
theorem c9_pool_reset (reqOld : Request) (resOld : Response) (hr : HTTPRequest)
    (reqId resId : Nat) :
    (resetPair reqOld resOld hr reqId resId).1.params.data = []
    ∧ (resetPair reqOld resOld hr reqId resId).1.params.cap = reqOld.params.cap
    ∧ (resetPair reqOld resOld hr reqId resId).1.routeParamNames = none
    ∧ (resetPair reqOld resOld hr reqId resId).1.routeParamValues = none
    ∧ (resetPair reqOld resOld hr reqId resId).1.parseRouteParamsOnce.fired = false
    ∧ (resetPair reqOld resOld hr reqId resId).1.parseOtherParamsOnce.fired = false
    ∧ (resetPair reqOld resOld hr reqId resId).1.localizedString = none
    ∧ (resetPair reqOld resOld hr reqId resId).1.hr = hr
    ∧ (resetPair reqOld resOld hr reqId resId).1.res = resId
    ∧ (resetPair reqOld resOld hr reqId resId).2.req = reqId
    ∧ (resetPair reqOld resOld hr reqId resId).2.status = 200
    ∧ (resetPair reqOld resOld hr reqId resId).2.contentLength = -1
    ∧ (resetPair reqOld resOld hr reqId resId).2.written = false
    ∧ (resetPair reqOld resOld hr reqId resId).2.minified = false
    ∧ (resetPair reqOld resOld hr reqId resId).2.gzipped = false
    ∧ (resetPair reqOld resOld hr reqId resId).2.deferredFuncs.data = []
    ∧ (resetPair reqOld resOld hr reqId resId).2.deferredFuncs.cap
        = resOld.deferredFuncs.cap := by
  exact ⟨rfl, rfl, rfl, rfl, rfl, rfl, rfl, rfl, rfl, rfl, rfl, rfl, rfl, rfl,
    rfl, rfl, rfl⟩

/-- C5: the commit operation fires at most once - the first
`WriteHeader` sets `Written`, a second call is the identity and keeps the
first call's status - and a generic 200 commit is overridden by a
different recorded status, which is the one sent. -/
theorem c5_commit_once (c : Conn) (st st2 : Nat) (hw : c.res.written = false) :
    (rwWriteHeader st c).res.written = true
    ∧ rwWriteHeader st2 (rwWriteHeader st c) = rwWriteHeader st c
    ∧ (st = 200 → c.res.status ≠ 200 →
        (rwWriteHeader st c).res.status = c.res.status
        ∧ (rwWriteHeader st c).wire.committed.map Prod.fst = some c.res.status) := by
  have hwr : (rwWriteHeader st c).res.written = true := by
    simp [rwWriteHeader, hw]
  refine ⟨hwr, ?_, ?_⟩
  · generalize hg : rwWriteHeader st c = c1
    rw [hg] at hwr
    simp [rwWriteHeader, hwr]
  · intro h200 hne
    subst h200
    have hne2 : ¬(200 = c.res.status) := fun h => hne h.symm
    simp [rwWriteHeader, hw, hne2]

/-- Witness for C5 at a concrete unwritten response with recorded
status 418. -/
theorem c5_commit_once_witness :
    conn5.res.written = false
    ∧ (rwWriteHeader 200 conn5).res.written = true
    ∧ rwWriteHeader 500 (rwWriteHeader 200 conn5) = rwWriteHeader 200 conn5
    ∧ (rwWriteHeader 200 conn5).res.status = conn5.res.status
    ∧ (rwWriteHeader 200 conn5).wire.committed.map Prod.fst
        = some conn5.res.status := by
  have h := c5_commit_once conn5 200 500 rfl
  exact ⟨rfl, h.1, h.2.1, (h.2.2 rfl (by decide)).1, (h.2.2 rfl (by decide)).2⟩

/-- C10: on an unwritten response, `Redirect` replaces a status below 300
or at/above 400 by 302 Found, both in the `Status` field and on the wire,
while a status already inside [300, 400) is kept and sent unchanged; the
call returns no error. -/
theorem c10_redirect_status (c : Conn) (url : String) (hw : c.res.written = false) :
    ((c.res.status < 300 ∨ 400 ≤ c.res.status) →
      (redirect url c).1.res.status = 302
      ∧ (redirect url c).1.wire.committed.map Prod.fst = some 302)
    ∧ (300 ≤ c.res.status → c.res.status < 400 →
      (redirect url c).1.res.status = c.res.status
      ∧ (redirect url c).1.wire.committed.map Prod.fst = some c.res.status)
    ∧ (redirect url c).2 = none := by
  refine ⟨?_, ?_, rfl⟩
  · intro hr
    simp only [redirect, if_pos hr]
    simp [rwWriteHeader, hw]
  · intro h3 h4
    have hcond : ¬(c.res.status < 300 ∨ 400 ≤ c.res.status) := by omega
    simp only [redirect, if_neg hcond]
    simp [rwWriteHeader, hw]

/-- Witness for C10: a 200 response redirects as 302, a 301 response
keeps its status. -/
theorem c10_redirect_status_witness :
    conn0.res.written = false
    ∧ conn301.res.written = false
    ∧ ((redirect "/next" conn0).1.res.status = 302
       ∧ (redirect "/next" conn0).1.wire.committed.map Prod.fst = some 302)
    ∧ ((redirect "/next" conn301).1.res.status = conn301.res.status
       ∧ (redirect "/next" conn301).1.wire.committed.map Prod.fst
           = some conn301.res.status) := by
  exact ⟨rfl, rfl,
    (c10_redirect_status conn0 "/next" rfl).1 (by decide),
    (c10_redirect_status conn301 "/next" rfl).2.1 (by decide) (by decide)⟩

/-- C4, counterexample to the claim as stated: from the dispatcher's reset
(`ContentLength = -1`), one successful write of 5 bytes leaves
`ContentLength` at 4, not at the 5 bytes actually written. -/
theorem c4_counterexample :
    conn0.res.contentLength = -1
    ∧ ([[1, 2, 3, 4, 5]].map List.length).sum = 5
    ∧ (writeMany [[1, 2, 3, 4, 5]] conn0).res.contentLength = 4
    ∧ ¬(writeMany [[1, 2, 3, 4, 5]] conn0).res.contentLength = 5 := by
  exact ⟨rfl, rfl, rfl, by decide⟩

/-- C4, amended: `ContentLength` starts at the sentinel `-1` and each
successful write adds its byte count, with the header commit never
resetting it, so after body writes totalling `n` bytes it holds `n - 1`. -/
theorem c4_content_length_accrual (bs : List Bytes) (c : Conn)
    (h : c.res.contentLength = -1) :
    (writeMany bs c).res.contentLength = ((bs.map List.length).sum : Int) - 1 := by
  rw [writeMany_contentLength, h]
  ring

/-- Witness for C4's amended statement at two concrete writes totalling
3 bytes. -/
theorem c4_content_length_accrual_witness :
    conn0.res.contentLength = -1
    ∧ (writeMany [[1, 2], [3]] conn0).res.contentLength
        = ((([[1, 2], [3]] : List Bytes).map List.length).sum : Int) - 1 := by
  exact ⟨rfl, c4_content_length_accrual [[1, 2], [3]] conn0 rfl⟩

/-- C1: at the failing input - a matched handler that records a
`text/plain` content type and returns no error without writing, on a
request that itself carries `Content-Type`/`Content-Length` headers - the
dispatcher's finalizer sets the `Status` field to 204 but deletes the
headers from the incoming request's map (`r.Header.Del` in `server.go`),
leaving the response's `Content-Type` intact, and the empty write then
panics inside `http.ServeContent` (nil content, no nil guard in
`Response.Write`): nothing is committed and no 204 reaches the wire. -/
theorem c1_nocontent_strips_request_header :
    (dispatch [] [] routeSetCT ehNoop connC1).2 = .panicked
    ∧ (dispatch [] [] routeSetCT ehNoop connC1).1.res.status = 204
    ∧ (dispatch [] [] routeSetCT ehNoop connC1).1.res.written = false
    ∧ (dispatch [] [] routeSetCT ehNoop connC1).1.wire.committed = none
    ∧ (dispatch [] [] routeSetCT ehNoop connC1).1.respHeader.get "Content-Type"
        = "text/plain; charset=utf-8"
    ∧ (dispatch [] [] routeSetCT ehNoop connC1).1.req.hr.header.get "Content-Type" = ""
    ∧ (dispatch [] [] routeSetCT ehNoop connC1).1.req.hr.header.get "Content-Length"
        = "" := by
  exact ⟨rfl, rfl, rfl, rfl, rfl, rfl, rfl⟩

/-- C7, counterexample to the claim as stated: a pre-route stage that
short-circuits with an error never passes the innermost escalation
wrapper, so the `ErrorHandler` observes the untouched 200 status - below
the claimed server-error class - and the final status stays 200. -/
theorem c7_counterexample :
    (dispatch [shortGas "boom"] [] logRoute ehRecord conn0).1.res.status = 200
    ∧ (dispatch [shortGas "boom"] [] logRoute ehRecord conn0).1.trace
        = [Event.errh 200]
    ∧ (dispatch [shortGas "boom"] [] logRoute ehRecord conn0).1.res.status < 400 := by
  exact ⟨rfl, rfl, by decide⟩

/-- C2: when the recorded content type has no registered minifier, the
blob write path sends the original bytes unchanged and returns no error -
the absence of a minifier is never a failure - and `WriteString`, which
records `text/plain` and funnels into `WriteBlob`, does likewise. -/
theorem c2_minify_passthrough (c : Conn) (b : Bytes)
    (hw : c.res.written = false) (hm : ¬c.req.hr.method = "HEAD")
    (h1 : mimeBase (c.respHeader.get "Content-Type") ∉ c.air.minRegistered)
    (h2 : mimeBase (c.respHeader.get "Content-Type") ≠ "image/jpeg")
    (h3 : mimeBase (c.respHeader.get "Content-Type") ≠ "image/png")
    (htp : "text/plain" ∉ c.air.minRegistered) :
    ((writeBlob b c).2 = .ret none
      ∧ (writeBlob b c).1.wire.body = c.wire.body ++ b)
    ∧ ∀ s : String,
        (writeString s c).2 = .ret none
        ∧ (writeString s c).1.wire.body = c.wire.body ++ strBytes s := by
  constructor
  · rw [writeBlob_nominify c b h1 h2 h3]
    exact respWrite_passthrough c b hw hm
  · intro s
    simp only [writeString]
    set c2 : Conn :=
      { c with respHeader := c.respHeader.set "Content-Type" "text/plain; charset=utf-8" }
      with hc2
    have hget : c2.respHeader.get "Content-Type" = "text/plain; charset=utf-8" := by
      rw [hc2]
      exact header_get_set c.respHeader "Content-Type" "text/plain; charset=utf-8"
    have hbase : mimeBase (c2.respHeader.get "Content-Type") = "text/plain" := by
      rw [hget]; decide
    have h1b : mimeBase (c2.respHeader.get "Content-Type") ∉ c2.air.minRegistered := by
      rw [hbase]; exact htp
    have h2b : mimeBase (c2.respHeader.get "Content-Type") ≠ "image/jpeg" := by
      rw [hbase]; decide
    have h3b : mimeBase (c2.respHeader.get "Content-Type") ≠ "image/png" := by
      rw [hbase]; decide
    rw [writeBlob_nominify c2 (strBytes s) h1b h2b h3b]
    exact respWrite_passthrough c2 (strBytes s) hw hm

/-- Witness for C2 at the freshly reset connection (no content type
recorded, `Init`-registered minifier set) and a three-byte payload. -/
theorem c2_minify_passthrough_witness :
    conn0.res.written = false
    ∧ ¬conn0.req.hr.method = "HEAD"
    ∧ mimeBase (conn0.respHeader.get "Content-Type") ∉ conn0.air.minRegistered
    ∧ "text/plain" ∉ conn0.air.minRegistered
    ∧ ((writeBlob [1, 2, 3] conn0).2 = .ret none
        ∧ (writeBlob [1, 2, 3] conn0).1.wire.body = conn0.wire.body ++ [1, 2, 3])
    ∧ ((writeString "hi" conn0).2 = .ret none
        ∧ (writeString "hi" conn0).1.wire.body = conn0.wire.body ++ strBytes "hi") := by
  have h := c2_minify_passthrough conn0 [1, 2, 3] rfl (by decide) (by decide)
    (by decide) (by decide) (by decide)
  exact ⟨rfl, by decide, by decide, by decide, h.1, h.2 "hi"⟩

/-- C7, amended: the status escalation is performed only by the innermost
wrapper around the routed handler - an error it returns with the response
unwritten and a sub-400 status propagates with the status set to 500 -
while an error short-circuited by a pre-route stage, or by a post-route
stage that never calls its inner continuation, reaches the
`ErrorHandler`, together with the request/response state, with the status
untouched. -/
theorem c7_escalation :
    (∀ (rh : Handler) (c : Conn) (err : String),
      (rh c).2 = .ret (some err) → (rh c).1.res.written = false →
      (rh c).1.res.status < 400 →
      routedInner rh c
        = ({ (rh c).1 with res := { (rh c).1.res with status := 500 } },
           .ret (some err)))
    ∧ (∀ (err : String) (gases : List Gas) (route : Conn → Handler × Conn)
        (eh : String → Conn → Conn) (c : Conn),
      dispatch [shortGas err] gases route eh c
        = (runDeferredLoop (eh err c), .ret none))
    ∧ (∀ (err : String) (route : Conn → Handler × Conn)
        (eh : String → Conn → Conn) (c : Conn),
      dispatch [] [shortGas err] route eh c
        = (runDeferredLoop (eh err (route c).2), .ret none)) := by
  refine ⟨?_, ?_, ?_⟩
  · intro rh c err he hw hs
    simp only [routedInner, he, hw]
    simp [hs]
  · intro err gases route eh c
    rfl
  · intro err route eh c
    rfl

/-- Witness for C7's amended statement: a handler error from a clean
connection is escalated to 500, and both a short-circuiting pre-route
stage and a short-circuiting post-route stage hand the untouched state to
the error handler. -/
theorem c7_escalation_witness :
    (rhErr conn0).2 = .ret (some "boom")
    ∧ (rhErr conn0).1.res.written = false
    ∧ (rhErr conn0).1.res.status < 400
    ∧ routedInner rhErr conn0
        = ({ (rhErr conn0).1 with res := { (rhErr conn0).1.res with status := 500 } },
           .ret (some "boom"))
    ∧ dispatch [shortGas "boom"] [] logRoute ehNoop conn0
        = (runDeferredLoop (ehNoop "boom" conn0), .ret none)
    ∧ dispatch [] [shortGas "boom"] logRoute ehNoop conn0
        = (runDeferredLoop (ehNoop "boom" (logRoute conn0).2), .ret none) := by
  exact ⟨rfl, rfl, by decide,
    c7_escalation.1 rhErr conn0 "boom" rfl rfl (by decide),
    c7_escalation.2.1 "boom" [] logRoute ehNoop conn0,
    c7_escalation.2.2 "boom" logRoute ehNoop conn0⟩

/-- C6: at the failing input - three deferred actions registered, the
matched handler returning no error without writing - the no-content
finalizer's nil write panics inside `http.ServeContent`, the panic
unwinds out of `ServeHTTP`, and the deferred loop never runs: the three
registered actions execute zero times, not once each, so they do not run
"regardless of handler outcome". The `ErrorHandler` is skipped too (no
event of any kind is recorded). -/
theorem c6_deferred_skipped :
    conn6.res.deferredFuncs.data = [1, 2, 3]
    ∧ (dispatch [] [] routeNoWrite ehRecord conn6).2 = .panicked
    ∧ (dispatch [] [] routeNoWrite ehRecord conn6).1.res.deferredFuncs.data = [1, 2, 3]
    ∧ (dispatch [] [] routeNoWrite ehRecord conn6).1.trace = [] := by
  exact ⟨rfl, rfl, rfl, rfl⟩

/-- The wrapping loop applied to a list of logging gases: the head of the
list is the outermost wrapper (its events bracket everything inside), the
last element the innermost; a panic from the wrapped handler unwinds past
every leave record. -/
theorem logGas_chain (k : GasKind) (inner : Handler) :
    ∀ (l : List Nat) (c : Conn),
    (chainGases (l.map (logGas k)) inner) c
      = (let r := inner { c with trace := c.trace ++ l.map (Event.enter k) }
         match r.2 with
         | .panicked => (r.1, .panicked)
         | o => ({ r.1 with trace := r.1.trace ++ l.reverse.map (Event.leave k) }, o)) := by
  intro l
  induction l with
  | nil =>
      intro c
      have h1 : { c with trace := c.trace ++ ([] : List Nat).map (Event.enter k) } = c := by
        simp
      show inner c = _
      rw [h1]
      rcases hr : inner c with ⟨c1, o⟩
      cases o <;> simp
  | cons x xs ih =>
      intro c
      simp only [List.map_cons, chainGases, List.foldr_cons] at *
      simp only [logGas, logEvent]
      rw [ih]
      simp only [List.append_assoc, List.singleton_append, List.cons_append]
      rcases hr : inner
        { c with trace := c.trace ++ Event.enter k x :: xs.map (Event.enter k) }
        with ⟨c1, o⟩
      cases o <;> simp [hr, List.reverse_cons, List.append_assoc]

theorem routedInner_logWrite_ret (c : Conn) :
    (routedInner logWriteHandler c).2 = .ret none := by
  simp [routedInner, logWriteHandler, respWrite_some_ret, respWrite_some_written]

theorem routedInner_logWrite_trace (c : Conn) :
    (routedInner logWriteHandler c).1.trace = c.trace ++ [Event.handler] := by
  simp [routedInner, logWriteHandler, respWrite_some_ret, respWrite_some_written,
    respWrite_some_trace, logEvent]

theorem routedInner_logWrite_deferred (c : Conn) :
    (routedInner logWriteHandler c).1.res.deferredFuncs = c.res.deferredFuncs := by
  simp [routedInner, logWriteHandler, respWrite_some_ret, respWrite_some_written,
    respWrite_some_deferred, logEvent]

theorem routedUnit_log_ret (gs : List Nat) (c : Conn) :
    ((routedUnit logRoute (gs.map (logGas .post))) c).2 = .ret none := by
  simp only [routedUnit, logRoute]
  rw [logGas_chain]
  simp [routedInner_logWrite_ret]

theorem routedUnit_log_trace (gs : List Nat) (c : Conn) :
    ((routedUnit logRoute (gs.map (logGas .post))) c).1.trace
      = c.trace ++ [Event.route] ++ gs.map (Event.enter .post) ++ [Event.handler]
        ++ gs.reverse.map (Event.leave .post) := by
  simp only [routedUnit, logRoute]
  rw [logGas_chain]
  simp [routedInner_logWrite_ret, routedInner_logWrite_trace, logEvent,
    List.append_assoc]

theorem routedUnit_log_deferred (gs : List Nat) (c : Conn) :
    ((routedUnit logRoute (gs.map (logGas .post))) c).1.res.deferredFuncs
      = c.res.deferredFuncs := by
  simp only [routedUnit, logRoute]
  rw [logGas_chain]
  simp [routedInner_logWrite_ret, routedInner_logWrite_deferred, logEvent]

/-- C3: with event-logging stages around a stub handler that writes a
body (so the no-content finalizer is never reached and the lifecycle
completes normally, which the outcome conjunct asserts), the dispatcher's
trace is exactly pre-route entries in list order, then route resolution,
then post-route entries in list order, then the matched handler, then the
post-route exits in reverse, then the pre-route exits in reverse: the
head pre-route gas is the outermost wrapper and the last post-route gas
the innermost one around the routed handler. -/
theorem c3_stage_order (ps gs : List Nat) (eh : String → Conn → Conn) (c0 : Conn)
    (hdef : c0.res.deferredFuncs.data = []) :
    (dispatch (ps.map (logGas .pre)) (gs.map (logGas .post)) logRoute eh c0).2
      = .ret none
    ∧ (dispatch (ps.map (logGas .pre)) (gs.map (logGas .post)) logRoute eh c0).1.trace
      = c0.trace ++ ps.map (Event.enter .pre) ++ [Event.route]
        ++ gs.map (Event.enter .post) ++ [Event.handler]
        ++ gs.reverse.map (Event.leave .post)
        ++ ps.reverse.map (Event.leave .pre) := by
  constructor
  · simp only [dispatch]
    rw [logGas_chain]
    simp [routedUnit_log_ret]
  · simp only [dispatch]
    rw [logGas_chain]
    simp [routedUnit_log_ret, routedUnit_log_trace, routedUnit_log_deferred,
      runDeferredLoop, hdef, runDefer, List.append_assoc]

/-- Witness for C3 at two pre-route stages and one post-route stage on the
freshly reset connection. -/
theorem c3_stage_order_witness :
    conn0.res.deferredFuncs.data = []
    ∧ (dispatch ([0, 1].map (logGas .pre)) ([0].map (logGas .post))
          logRoute ehNoop conn0).2 = .ret none
    ∧ (dispatch ([0, 1].map (logGas .pre)) ([0].map (logGas .post))
          logRoute ehNoop conn0).1.trace
      = conn0.trace ++ [0, 1].map (Event.enter .pre) ++ [Event.route]
        ++ [0].map (Event.enter .post) ++ [Event.handler]
        ++ ([0] : List Nat).reverse.map (Event.leave .post)
        ++ ([0, 1] : List Nat).reverse.map (Event.leave .pre) :=
  ⟨rfl, (c3_stage_order [0, 1] [0] ehNoop conn0 rfl).1,
    (c3_stage_order [0, 1] [0] ehNoop conn0 rfl).2⟩

theorem splitAtLastColon_of_not_mem :
    ∀ (l : List Char), ':' ∉ l → splitAtLastColon l = none := by
  intro l
  induction l with
  | nil => intro _; rfl
  | cons x xs ih =>
      intro h
      simp only [List.mem_cons, not_or] at h
      simp [splitAtLastColon, ih h.2, Ne.symm h.1]

theorem splitAtLastColon_append (base port : List Char) (hp : ':' ∉ port) :
    splitAtLastColon (base ++ ':' :: port) = some (base, port) := by
  induction base with
  | nil => simp [splitAtLastColon, splitAtLastColon_of_not_mem port hp]
  | cons x xs ih => simp [splitAtLastColon, ih]

/-- C8: in static-certificate mode the host policy behaves as claimed -
debug mode or an empty whitelist allows every name; a port suffix is
stripped before matching; matching is case-insensitive; and a rejected
name yields no certificate with the underlying connection closed. -/
theorem c8_host_policy :
    (∀ (cfg : AirCfg) (host : List Char),
      cfg.debugMode = true ∨ cfg.hostWhitelist = [] → allowedHost cfg host = true)
    ∧ (∀ (cfg : AirCfg) (base port : List Char),
      base ≠ [] → ':' ∉ base → '[' ∉ base → ']' ∉ base →
      ':' ∉ port → '[' ∉ port → ']' ∉ port →
      allowedHost cfg (base ++ ':' :: port) = allowedHost cfg base)
    ∧ (∀ (cfg : AirCfg) (host w : List Char),
      ':' ∉ host → w ∈ cfg.hostWhitelist → toLowerL w = toLowerL host →
      allowedHost cfg host = true)
    ∧ (∀ (cfg : AirCfg) (cert : Nat) (name : List Char),
      allowedHost cfg name = false →
      getCertificateStatic cfg cert name = (none, true)) := by
  refine ⟨?_, ?_, ?_, ?_⟩
  · intro cfg host h
    rcases h with h | h <;> simp [allowedHost, h]
  · intro cfg base port hne hcb hlb hrb hcp hlp hrp
    by_cases hall : cfg.debugMode ∨ cfg.hostWhitelist.isEmpty
    · rcases hall with h | h
      · simp [allowedHost, h]
      · simp [allowedHost, List.isEmpty_iff.mp h]
    · have hhead : base.head? ≠ some '[' := by
        cases base with
        | nil => simp
        | cons b bs =>
            simp only [List.head?_cons]
            intro hcon
            injection hcon with hb
            subst hb
            exact hlb (List.mem_cons_self _ _)
      have hsplit1 : splitHostPort (base ++ ':' :: port) = (base, port) := by
        simp [splitHostPort, splitAtLastColon_append base port hcp,
          hlp, hrp, hhead, hcb, hlb, hrb]
      have hsplit2 : splitHostPort base = ([], []) := by
        simp [splitHostPort, splitAtLastColon_of_not_mem base hcb]
      simp only [allowedHost, if_neg hall, hsplit1, hsplit2]
      simp [hne]
  · intro cfg host w hch hwmem hlow
    by_cases hall : cfg.debugMode ∨ cfg.hostWhitelist.isEmpty
    · rcases hall with h | h
      · simp [allowedHost, h]
      · simp [allowedHost, List.isEmpty_iff.mp h]
    · have hsplit : splitHostPort host = ([], []) := by
        simp [splitHostPort, splitAtLastColon_of_not_mem host hch]
      simp only [allowedHost, if_neg hall, hsplit]
      simp only [ne_eq, not_true_eq_false, if_false, stringSliceContainsCIly,
        List.any_eq_true]
      exact ⟨w, hwmem, by simp [hlow]⟩
  · intro cfg cert name hna
    simp [getCertificateStatic, hna]

/-- Witness for C8 at a one-entry whitelist: the debug override, the port
strip on `example.com:8443`, the case-insensitive match of `EXAMPLE.COM`,
and the no-certificate-and-close rejection of `evil.com`. -/
theorem c8_host_policy_witness :
    (cfgDbg.debugMode = true ∨ cfgDbg.hostWhitelist = [])
    ∧ allowedHost cfgDbg "anything.example".toList = true
    ∧ allowedHost cfgW ("example.com".toList ++ ':' :: "8443".toList)
        = allowedHost cfgW "example.com".toList
    ∧ allowedHost cfgW "EXAMPLE.COM".toList = true
    ∧ allowedHost cfgW "evil.com".toList = false
    ∧ getCertificateStatic cfgW 7 "evil.com".toList = (none, true) := by
  refine ⟨Or.inl rfl, c8_host_policy.1 cfgDbg _ (Or.inl rfl),
    c8_host_policy.2.1 cfgW "example.com".toList "8443".toList (by decide)
      (by decide) (by decide) (by decide) (by decide) (by decide) (by decide),
    c8_host_policy.2.2.1 cfgW "EXAMPLE.COM".toList "example.com".toList
      (by decide) (by decide) (by decide),
    by decide,
    c8_host_policy.2.2.2 cfgW 7 "evil.com".toList (by decide)⟩

end AirSpec
